import Mathlib

/-!
# Feature extraction and sanitisation of `examples/foo.cpp`

A shallow embedding of `main` of `src/examples/foo.cpp`.

* `Double` is an IEEE 754 binary64 value given by its three bit fields, so every
  inhabitant is a value a C++ `double` can hold, and nothing else is.
* Finite values are compared through `Double.mag`, the exact magnitude counted in
  units of `2^-1074` (the smallest subnormal), which is a natural number for every
  binary64 value.
* Literals of the source are converted with `Double.round`, round to nearest, ties
  to even, as the compiler does.
-/

namespace IbexFeatures

/-! ## binary64 -/

/-- An IEEE 754 binary64 value: sign bit, 11 bit biased exponent, 52 bit fraction. -/
structure Double where
  sign : Bool
  expo : Fin 2048
  frac : Fin 4503599627370496
  deriving DecidableEq

namespace Double

/-- The value `std::isnan` tests for: all exponent bits set, fraction not zero. -/
def isnan (d : Double) : Bool := d.expo.val == 2047 && d.frac.val != 0

/-- The value `std::isinf` tests for: all exponent bits set, fraction zero. -/
def isinf (d : Double) : Bool := d.expo.val == 2047 && d.frac.val == 0

/-- Magnitude in units of `2^-1074`. Subnormals (`expo = 0`) are `frac`, normal values are
`(2^52 + frac) * 2^(expo - 1)`. On an infinity this is `2^52 * 2^2046`, above every finite
magnitude, so the order on `toOrd` is the IEEE order on all values that are not NaN. -/
def mag (d : Double) : Nat :=
  if d.expo.val = 0 then d.frac.val else (4503599627370496 + d.frac.val) <<< (d.expo.val - 1)

/-- Signed magnitude in units of `2^-1074`; both zeros map to `0`. -/
def toOrd (d : Double) : Int := if d.sign then -(d.mag : Int) else (d.mag : Int)

/-- C++ `a < b` on doubles: false as soon as one side is NaN. -/
def lt (a b : Double) : Bool := !a.isnan && !b.isnan && decide (a.toOrd < b.toOrd)

/-- C++ `a <= b` on doubles: false as soon as one side is NaN. -/
def le (a b : Double) : Bool := !a.isnan && !b.isnan && decide (a.toOrd ≤ b.toOrd)

/-- C++ `a >= b` on doubles: false as soon as one side is NaN. -/
def ge (a b : Double) : Bool := !a.isnan && !b.isnan && decide (b.toOrd ≤ a.toOrd)

/-- The function `std::abs` on a double clears the sign bit. -/
def abs (d : Double) : Double := { d with sign := false }

/-- Unary minus flips the sign bit. -/
def neg (d : Double) : Double := { d with sign := !d.sign }

/-- The literal `0.0`. -/
def zero : Double := ⟨false, 0, 0⟩

/-- An infinity of the given sign. -/
def inf (sign : Bool) : Double := ⟨sign, 2047, 0⟩

/-- The default quiet NaN. -/
def nan : Double := ⟨false, 2047, 2251799813685248⟩

/-- Nearest integer to `n / d`, ties to even. -/
def rne (n d : Nat) : Nat :=
  let q := n / d
  let r := n % d
  if 2 * r < d then q
  else if d < 2 * r then q + 1
  else if q % 2 = 0 then q else q + 1

/-- Number of binary digits of `n`, counted up to `fuel` digits. -/
def bitLength : Nat → Nat → Nat
  | 0, _ => 0
  | fuel + 1, n => if n = 0 then 0 else bitLength fuel (n / 2) + 1

/-- Round the magnitude `num / den` (in units of `2^-1074`) to the nearest binary64 value,
ties to even, overflowing to an infinity. The quotient is first located: `k` is the number
of binary digits it has beyond 53, so that the unit in the last place is `2^k`; a quotient
of more than 2200 digits is far above the largest finite value and becomes an infinity. -/
def round (sign : Bool) (num den : Nat) : Double :=
  let n := num / den
  let k := bitLength 2200 n - 53
  let r := rne num (den <<< k)
  if h : r < 4503599627370496 then ⟨sign, 0, ⟨r, h⟩⟩
  else
    let e := if r = 9007199254740992 then k + 2 else k + 1
    let f := if r = 9007199254740992 then 0 else r - 4503599627370496
    if h2 : e < 2047 then ⟨sign, ⟨e, by omega⟩, Fin.ofNat f⟩ else inf sign

/-- Conversion of an integer to `double`. -/
def ofInt (i : Int) : Double := round (decide (i < 0)) (i.natAbs <<< 1074) 1

/-- A decimal literal `m`e-`k` (the rational `m / 10^k`) converted to `double`. -/
def ofDecimal (m k : Nat) : Double := round false (m <<< 1074) (10 ^ k)

/-- IEEE addition, round to nearest. -/
def add (a b : Double) : Double :=
  if a.isnan then a
  else if b.isnan then b
  else if a.isinf then (if b.isinf && (a.sign != b.sign) then nan else a)
  else if b.isinf then b
  else
    let s := a.toOrd + b.toOrd
    if s = 0 then ⟨a.sign && b.sign, 0, 0⟩
    else round (decide (s < 0)) s.natAbs 1

/-- IEEE subtraction, round to nearest. -/
def sub (a b : Double) : Double := add a (neg b)

end Double

/-! ## Constants of the source (lines 11-13) -/

/-- The constant `const double CLAMP_VALUE = 1e7;`. -/
@[irreducible] def CLAMP_VALUE : Double := Double.ofDecimal 10000000 0

/-- The constant `const double UMBRAL_CERO = 1e-7;`. -/
@[irreducible] def UMBRAL_CERO : Double := Double.ofDecimal 1 7

/-- The constant `const double MAX_VALUE = 9223372036854775807;`: an integer literal converted
to `double`. -/
@[irreducible] def MAX_VALUE : Double := Double.ofInt 9223372036854775807

/-! ## The parts of the ibex library that `main` uses -/

/-- An ibex `Interval`, read through `lb()` and `ub()`. -/
structure Interval where
  lb : Double
  ub : Double

/-- Modelled from the spec: `Interval::diam` of the ibex library, whose code is not part of
the sources. The spec gives the width of a dimension as upper − lower. -/
def Interval.diam (x : Interval) : Double := Double.sub x.ub x.lb

/-- An ibex `IntervalVector`: `size()` is the length, `operator[]` the indexing. -/
abbrev IntervalVector := List Interval

/-- Modelled from the spec: `IntervalVector::max_diam` of the ibex library, whose code is not
part of the sources: the maximum per-dimension width across the box, and `0.0` on a box
without dimensions. -/
def IntervalVector.max_diam (box : IntervalVector) : Double :=
  match box with
  | [] => Double.zero
  | x :: xs => xs.foldl (fun m y => if Double.lt m y.diam then y.diam else m) x.diam

/-- Modelled from the spec: `IntervalVector::min_diam` of the ibex library, whose code is not
part of the sources: the minimum per-dimension width across the box, and `0.0` on a box
without dimensions. -/
def IntervalVector.min_diam (box : IntervalVector) : Double :=
  match box with
  | [] => Double.zero
  | x :: xs => xs.foldl (fun m y => if Double.lt y.diam m then y.diam else m) x.diam

/-- The two exception classes that `main` catches. -/
inductive Exc where
  | ibex (what : String)
  | std (what : String)

/-- The fields of an ibex `System` that `main` reads. `goal` is the null pointer when the
problem has no objective; evaluating it may throw. -/
structure System where
  nb_var : Int
  nb_ctr : Int
  goal : Option (IntervalVector → Except Exc Interval)
  box : IntervalVector

/-! ## `main`, lines 64-69: the accumulation loop -/

/-- The loop `for (int i = 0; i < initial_box.size(); ++i) search_space += initial_box[i].diam();`
entered with counter `i` and accumulator `acc`. -/
def sumLoop (box : IntervalVector) (i : Nat) (acc : Double) : Double :=
  if h : i < box.length then sumLoop box (i + 1) (Double.add acc (box.get ⟨i, h⟩).diam) else acc
termination_by box.length - i

/-! ## `main`, lines 78-94: the clean-up of the five floating locals -/

/-- The five `double` locals of `main` that lines 78-94 rewrite in place. -/
structure Locals where
  lb_f_obj : Double
  ub_f_obj : Double
  search_space : Double
  bigger_diam : Double
  lower_diam : Double
  deriving DecidableEq

/-- Lines 78-82. -/
def zeroSnap (s : Locals) : Locals :=
  let s := if Double.lt (Double.abs s.lb_f_obj) UMBRAL_CERO then { s with lb_f_obj := Double.zero } else s
  let s := if Double.lt (Double.abs s.ub_f_obj) UMBRAL_CERO then { s with ub_f_obj := Double.zero } else s
  let s := if Double.lt (Double.abs s.search_space) UMBRAL_CERO then { s with search_space := Double.zero } else s
  let s := if Double.lt (Double.abs s.bigger_diam) UMBRAL_CERO then { s with bigger_diam := Double.zero } else s
  let s := if Double.lt (Double.abs s.lower_diam) UMBRAL_CERO then { s with lower_diam := Double.zero } else s
  s

/-- Lines 84-88. -/
def clamp (s : Locals) : Locals :=
  let s := if Double.ge s.lb_f_obj CLAMP_VALUE then { s with lb_f_obj := MAX_VALUE }
    else if Double.le s.lb_f_obj (Double.neg CLAMP_VALUE) then { s with lb_f_obj := Double.neg MAX_VALUE }
    else s
  let s := if Double.ge s.ub_f_obj CLAMP_VALUE then { s with ub_f_obj := MAX_VALUE }
    else if Double.le s.ub_f_obj (Double.neg CLAMP_VALUE) then { s with ub_f_obj := Double.neg MAX_VALUE }
    else s
  s

/-- Lines 90-94. -/
def nonFinite (s : Locals) : Locals :=
  let s := if s.lb_f_obj.isnan || s.lb_f_obj.isinf then { s with lb_f_obj := Double.zero } else s
  let s := if s.ub_f_obj.isnan || s.ub_f_obj.isinf then { s with ub_f_obj := Double.zero } else s
  let s := if s.search_space.isnan || s.search_space.isinf then { s with search_space := Double.zero } else s
  let s := if s.bigger_diam.isnan || s.bigger_diam.isinf then { s with bigger_diam := Double.zero } else s
  let s := if s.lower_diam.isnan || s.lower_diam.isinf then { s with lower_diam := Double.zero } else s
  s

/-- Lines 78-94 in their order. -/
def sanitize (s : Locals) : Locals := nonFinite (clamp (zeroSnap s))

/-! ## `main`, lines 100-118: the emitter -/

/-- The `k` lowest decimal digits of `n`, most significant first. -/
def lowDigits : Nat → Nat → List Char
  | 0, _ => []
  | k + 1, n => lowDigits k (n / 10) ++ [Char.ofNat (48 + n % 10)]

/-- What `operator<<` writes for a `double` under `std::fixed << std::setprecision(17)`: the
exact value rounded to 17 decimals (ties to even), all 17 of them printed. -/
def fixed17 (d : Double) : String :=
  if d.isnan then (if d.sign then "-nan" else "nan")
  else if d.isinf then (if d.sign then "-inf" else "inf")
  else
    let n := Double.rne (d.mag * 10 ^ 17) (1 <<< 1074)
    (if d.sign then "-" else "") ++ toString (n / 10 ^ 17) ++ "." ++ String.mk (lowDigits 17 (n % 10 ^ 17))

/-- The text of lines 108-116. -/
def outputLine (num_vars num_ctrs : Int) (s : Locals) : String :=
  "((" ++ fixed17 (Double.ofInt num_vars) ++ " ; "
    ++ fixed17 (Double.ofInt num_ctrs) ++ " ; "
    ++ fixed17 s.lb_f_obj ++ " ; "
    ++ fixed17 s.ub_f_obj ++ " ; "
    ++ fixed17 s.search_space ++ " ; "
    ++ fixed17 s.bigger_diam ++ " ; "
    ++ fixed17 s.lower_diam
    ++ "))"

/-! ## `main` as a whole -/

/-- What a run can change: the file `temp.txt` of the working directory (`none` when it does
not exist) and the text sent to `cerr`. -/
structure World where
  temp_txt : Option String
  cerr : String
  deriving DecidableEq

/-- What a run depends on besides its arguments: the constructor `System sys(filename)`, which
may throw, and whether `ofstream outFile("temp.txt")` succeeds in opening the file. -/
structure Env where
  load : String → Except Exc System
  canOpen : Bool

/-- Lines 47-75: the five raw floating features. Throws what the evaluation of the objective
throws. -/
def extract (sys : System) : Except Exc Locals := do
  let initial_box := sys.box
  let (lb_f_obj, ub_f_obj) ←
    match sys.goal with
    | some goal => do
        let f_obj_interval ← goal initial_box
        pure (f_obj_interval.lb, f_obj_interval.ub)
    | none => pure (Double.zero, Double.zero)
  let search_space := sumLoop initial_box 0 Double.zero
  let bigger_diam := initial_box.max_diam
  let lower_diam := initial_box.min_diam
  pure ⟨lb_f_obj, ub_f_obj, search_space, bigger_diam, lower_diam⟩

/-- Lines 47-94: the raw features, then their clean-up. -/
def features (sys : System) : Except Exc Locals := do
  let raw ← extract sys
  pure (sanitize raw)

/-- The `try` block, lines 26-118. The result is `some 1` for the `return 1` of line 103 and
`none` when the block runs to its end. -/
def tryBlock (env : Env) (filename : String) (w : World) : Except Exc (Option Int × World) := do
  let sys ← env.load filename
  let num_vars := sys.nb_var
  let num_ctrs := sys.nb_ctr
  let s ← features sys
  if !env.canOpen then
    pure (some 1, { w with cerr := w.cerr ++ "Error: No se pudo abrir el archivo de salida temp.txt\n" })
  else
    pure (none, { w with temp_txt := some (outputLine num_vars num_ctrs s) })

/-- The function `main`: `argv` holds the program name and its arguments (`argc` is its length);
the result is the exit code and the world after the run. -/
def main (env : Env) (argv : List String) (w : World) : Int × World :=
  match argv with
  | [] | [_] =>
    (1, { w with cerr := w.cerr
        ++ "Error: Se necesita el nombre del archivo del problema como argumento.\n"
        ++ "Uso: ./foo <nombre_archivo.bch>\n" })
  | _ :: filename :: _ =>
    match tryBlock env filename w with
    | .ok (some code, w1) => (code, w1)
    | .ok (none, w1) => (0, w1)
    | .error (.ibex what) => (1, { w with cerr := w.cerr ++ "Ha ocurrido un error en Ibex: " ++ what ++ "\n" })
    | .error (.std what) => (1, { w with cerr := w.cerr ++ "Ha ocurrido un error inesperado: " ++ what ++ "\n" })

/-! ## Per-variable view of lines 78-94 -/

/-- What lines 78, 84-85 and 90 do to `lb_f_obj`, and lines 79, 87-88 and 91 to `ub_f_obj`. -/
def cleanBound (v : Double) : Double :=
  let v := if Double.lt (Double.abs v) UMBRAL_CERO then Double.zero else v
  let v := if Double.ge v CLAMP_VALUE then MAX_VALUE
    else if Double.le v (Double.neg CLAMP_VALUE) then Double.neg MAX_VALUE
    else v
  if v.isnan || v.isinf then Double.zero else v

/-- What lines 80-82 and 92-94 do to `search_space`, `bigger_diam` and `lower_diam`. -/
def cleanWidth (v : Double) : Double :=
  let v := if Double.lt (Double.abs v) UMBRAL_CERO then Double.zero else v
  if v.isnan || v.isinf then Double.zero else v

/-! ## Vocabulary of the statements -/

/-- A fixed-point decimal with exactly 17 digits after the decimal point: an optional minus
sign, the decimal numeral of a natural number, a point, and 17 decimal digits. -/
def IsFixed17 (t : String) : Prop :=
  ∃ (minus : Bool) (whole : Nat) (digits : List Char),
    t = (if minus then "-" else "") ++ toString whole ++ "." ++ String.mk digits ∧
    digits.length = 17 ∧ ∀ c ∈ digits, c.isDigit = true

/-- The count `n` written as a fixed-point decimal: its decimal numeral, a point, 17 zeros. -/
def countField (n : Int) : String :=
  (if n < 0 then "-" else "") ++ toString n.natAbs ++ "." ++ "00000000000000000"

/-- The values of a C++ `int`, the type of `nb_var` and `nb_ctr`. -/
def isInt32 (n : Int) : Bool := decide (-2147483648 ≤ n) && decide (n ≤ 2147483647)

/-- The test "finite and `1e-7 <= |v| < 1e7`" on a raw value, with the comparisons of the source
against `UMBRAL_CERO` and `CLAMP_VALUE`. -/
def inPassRange (v : Double) : Bool :=
  !v.isnan && !v.isinf && Double.ge (Double.abs v) UMBRAL_CERO
    && Double.lt (Double.abs v) CLAMP_VALUE

/-! ## Sample inputs -/

/-- The double `-1e-8`, bit pattern `0xBE45798EE2308C3A`. -/
def minusTiny : Double := Double.neg (Double.ofDecimal 1 8)

/-- The largest double below `1e7`, bit pattern `0x416312CFFFFFFFFF`. -/
def belowClamp : Double := ⟨false, 1046, 0x312CFFFFFFFFF⟩

/-- A problem with three variables, no constraint and no objective, on the box
`[-1e7, 1e7] x [0, 0] x [-Infinity, +Infinity]`. -/
def wideSystem : System :=
  ⟨3, 0, none,
    [⟨Double.ofInt (-10000000), Double.ofInt 10000000⟩, ⟨Double.zero, Double.zero⟩,
      ⟨Double.inf true, Double.inf false⟩]⟩

/-- The interval `[0, 1]`. -/
def unitInterval : Interval := ⟨Double.zero, Double.ofInt 1⟩

/-- The problem of scenario 1: two variables on `[0, 1]`, one constraint, no objective. -/
def scenarioOne : System := ⟨2, 1, none, [unitInterval, unitInterval]⟩

/-- A problem whose objective cannot be evaluated. -/
def throwingSystem : System :=
  ⟨1, 0, some (fun _ => .error (.ibex "eval")), [unitInterval]⟩

/-- A problem with one variable on `[0, 1]`, ten million constraints and no objective. -/
def manyConstraints : System := ⟨1, 10000000, none, [unitInterval]⟩

/-- A problem without variables. -/
def emptySystem : System := ⟨0, 0, none, []⟩

/-! ## The constants as bit patterns -/

set_option maxRecDepth 100000 in
theorem CLAMP_VALUE_bits : CLAMP_VALUE = ⟨false, 1046, 0x312D000000000⟩ := by
  unfold CLAMP_VALUE; decide

set_option maxRecDepth 100000 in
theorem UMBRAL_CERO_bits : UMBRAL_CERO = ⟨false, 999, 0xAD7F29ABCAF48⟩ := by
  unfold UMBRAL_CERO; decide

set_option maxRecDepth 100000 in
theorem MAX_VALUE_bits : MAX_VALUE = ⟨false, 1086, 0⟩ := by
  unfold MAX_VALUE; decide

set_option maxRecDepth 100000 in
theorem minusTiny_bits : minusTiny = ⟨true, 996, 0x5798EE2308C3A⟩ := by decide

/-- The double that the literal `9223372036854775807` denotes is `2^63`. -/
theorem MAX_VALUE_mag : MAX_VALUE.mag = 9223372036854775808 <<< 1074 := by
  rw [MAX_VALUE_bits]; decide

/-- The literal `1e7` is exact. -/
theorem CLAMP_VALUE_mag : CLAMP_VALUE.mag = 10000000 <<< 1074 := by
  rw [CLAMP_VALUE_bits]; decide

/-! ## Order facts -/

theorem Double.toOrd_le_mag (v : Double) : v.toOrd ≤ (v.mag : Int) := by
  unfold Double.toOrd; split <;> omega

theorem Double.neg_mag_le_toOrd (v : Double) : -(v.mag : Int) ≤ v.toOrd := by
  unfold Double.toOrd; split <;> omega

theorem Double.abs_toOrd (v : Double) : (Double.abs v).toOrd = (v.mag : Int) := by
  simp [Double.toOrd, Double.abs, Double.mag]

theorem Double.abs_isnan (v : Double) : (Double.abs v).isnan = v.isnan := rfl

theorem UMBRAL_lt_CLAMP : UMBRAL_CERO.toOrd < CLAMP_VALUE.toOrd := by
  rw [UMBRAL_CERO_bits, CLAMP_VALUE_bits]; decide

theorem neg_CLAMP_toOrd : (Double.neg CLAMP_VALUE).toOrd = -CLAMP_VALUE.toOrd := by
  rw [CLAMP_VALUE_bits]; decide

theorem CLAMP_pos : 0 < CLAMP_VALUE.toOrd := by
  rw [CLAMP_VALUE_bits]; decide

/-- A value at or above `CLAMP_VALUE` is not below `UMBRAL_CERO` in absolute value. -/
theorem not_small_of_ge {v : Double} (h : Double.ge v CLAMP_VALUE = true) :
    Double.lt (Double.abs v) UMBRAL_CERO = false := by
  have h1 := Double.toOrd_le_mag v
  have h2 := UMBRAL_lt_CLAMP
  simp only [Double.ge, Bool.and_eq_true, decide_eq_true_eq] at h
  simp only [Double.lt, Double.abs_toOrd, Double.abs_isnan]
  have : ¬ ((v.mag : Int) < UMBRAL_CERO.toOrd) := by omega
  simp [this]

/-- A value at or below `-CLAMP_VALUE` is not below `UMBRAL_CERO` in absolute value. -/
theorem not_small_of_le {v : Double} (h : Double.le v (Double.neg CLAMP_VALUE) = true) :
    Double.lt (Double.abs v) UMBRAL_CERO = false := by
  have h1 := Double.neg_mag_le_toOrd v
  have h2 := UMBRAL_lt_CLAMP
  simp only [Double.le, Bool.and_eq_true, decide_eq_true_eq, neg_CLAMP_toOrd] at h
  simp only [Double.lt, Double.abs_toOrd, Double.abs_isnan]
  have : ¬ ((v.mag : Int) < UMBRAL_CERO.toOrd) := by omega
  simp [this]

/-- A value at or below `-CLAMP_VALUE` is not at or above `CLAMP_VALUE`. -/
theorem not_ge_of_le {v : Double} (h : Double.le v (Double.neg CLAMP_VALUE) = true) :
    Double.ge v CLAMP_VALUE = false := by
  have h2 := CLAMP_pos
  simp only [Double.le, Bool.and_eq_true, decide_eq_true_eq, neg_CLAMP_toOrd] at h
  simp only [Double.ge]
  have : ¬ (CLAMP_VALUE.toOrd ≤ v.toOrd) := by omega
  simp [this]

/-! ## The clean-up, variable by variable -/

theorem zeroSnap_eq (s : Locals) : zeroSnap s =
    ⟨if Double.lt (Double.abs s.lb_f_obj) UMBRAL_CERO then Double.zero else s.lb_f_obj,
     if Double.lt (Double.abs s.ub_f_obj) UMBRAL_CERO then Double.zero else s.ub_f_obj,
     if Double.lt (Double.abs s.search_space) UMBRAL_CERO then Double.zero else s.search_space,
     if Double.lt (Double.abs s.bigger_diam) UMBRAL_CERO then Double.zero else s.bigger_diam,
     if Double.lt (Double.abs s.lower_diam) UMBRAL_CERO then Double.zero else s.lower_diam⟩ := by
  cases s; simp only [zeroSnap]; split_ifs <;> rfl

theorem clamp_eq (s : Locals) : clamp s =
    ⟨if Double.ge s.lb_f_obj CLAMP_VALUE then MAX_VALUE
       else if Double.le s.lb_f_obj (Double.neg CLAMP_VALUE) then Double.neg MAX_VALUE
       else s.lb_f_obj,
     if Double.ge s.ub_f_obj CLAMP_VALUE then MAX_VALUE
       else if Double.le s.ub_f_obj (Double.neg CLAMP_VALUE) then Double.neg MAX_VALUE
       else s.ub_f_obj,
     s.search_space, s.bigger_diam, s.lower_diam⟩ := by
  cases s; simp only [clamp]; split_ifs <;> rfl

theorem nonFinite_eq (s : Locals) : nonFinite s =
    ⟨if s.lb_f_obj.isnan || s.lb_f_obj.isinf then Double.zero else s.lb_f_obj,
     if s.ub_f_obj.isnan || s.ub_f_obj.isinf then Double.zero else s.ub_f_obj,
     if s.search_space.isnan || s.search_space.isinf then Double.zero else s.search_space,
     if s.bigger_diam.isnan || s.bigger_diam.isinf then Double.zero else s.bigger_diam,
     if s.lower_diam.isnan || s.lower_diam.isinf then Double.zero else s.lower_diam⟩ := by
  cases s; simp only [nonFinite]; split_ifs <;> rfl

/-- Lines 78-94 treat the five locals independently of each other. -/
theorem sanitize_eq (s : Locals) : sanitize s =
    ⟨cleanBound s.lb_f_obj, cleanBound s.ub_f_obj,
     cleanWidth s.search_space, cleanWidth s.bigger_diam, cleanWidth s.lower_diam⟩ := by
  unfold sanitize
  rw [nonFinite_eq, clamp_eq, zeroSnap_eq]
  rfl

/-! ## Facts on `cleanBound` and `cleanWidth` -/

theorem zero_small : Double.lt (Double.abs Double.zero) UMBRAL_CERO = true := by
  rw [UMBRAL_CERO_bits]; decide

theorem cleanBound_zero : cleanBound Double.zero = Double.zero := by
  unfold cleanBound; rw [CLAMP_VALUE_bits, UMBRAL_CERO_bits]; decide

theorem cleanWidth_zero : cleanWidth Double.zero = Double.zero := by
  unfold cleanWidth; rw [UMBRAL_CERO_bits]; decide

theorem cleanBound_MAX : cleanBound MAX_VALUE = MAX_VALUE := by
  unfold cleanBound; rw [CLAMP_VALUE_bits, UMBRAL_CERO_bits, MAX_VALUE_bits]; decide

theorem cleanBound_neg_MAX : cleanBound (Double.neg MAX_VALUE) = Double.neg MAX_VALUE := by
  unfold cleanBound; rw [CLAMP_VALUE_bits, UMBRAL_CERO_bits, MAX_VALUE_bits]; decide

theorem MAX_VALUE_finite : (MAX_VALUE.isnan || MAX_VALUE.isinf) = false := by
  rw [MAX_VALUE_bits]; decide

theorem neg_MAX_VALUE_finite :
    ((Double.neg MAX_VALUE).isnan || (Double.neg MAX_VALUE).isinf) = false := by
  rw [MAX_VALUE_bits]; decide

theorem zero_finite : (Double.zero.isnan || Double.zero.isinf) = false := by decide

theorem cleanBound_of_ge {v : Double} (h : Double.ge v CLAMP_VALUE = true) :
    cleanBound v = MAX_VALUE := by
  unfold cleanBound
  simp only [not_small_of_ge h, h, MAX_VALUE_finite, if_true, if_false, Bool.false_eq_true]

theorem cleanBound_of_le {v : Double} (h : Double.le v (Double.neg CLAMP_VALUE) = true) :
    cleanBound v = Double.neg MAX_VALUE := by
  unfold cleanBound
  simp only [not_small_of_le h, not_ge_of_le h, h, neg_MAX_VALUE_finite, if_true, if_false,
    Bool.false_eq_true]

theorem cleanBound_of_small {v : Double} (h : Double.lt (Double.abs v) UMBRAL_CERO = true) :
    cleanBound v = Double.zero := by
  have := cleanBound_zero
  unfold cleanBound at this ⊢
  simp only [h, if_true]
  simpa only [zero_small, if_true] using this

theorem cleanWidth_of_small {v : Double} (h : Double.lt (Double.abs v) UMBRAL_CERO = true) :
    cleanWidth v = Double.zero := by
  unfold cleanWidth
  simp only [h, if_true, zero_finite, Bool.false_eq_true, if_false]

theorem cleanBound_of_nan {v : Double} (h : v.isnan = true) : cleanBound v = Double.zero := by
  unfold cleanBound
  simp [Double.lt, Double.ge, Double.le, Double.abs_isnan, h]

theorem cleanWidth_of_nan {v : Double} (h : v.isnan = true) : cleanWidth v = Double.zero := by
  unfold cleanWidth
  simp [Double.lt, Double.abs_isnan, h]

theorem cleanWidth_of_inf {v : Double} (h : v.isinf = true) : cleanWidth v = Double.zero := by
  unfold cleanWidth
  by_cases hs : Double.lt (Double.abs v) UMBRAL_CERO = true
  · simp only [hs, if_true, zero_finite, Bool.false_eq_true, if_false]
  · simp [hs, h]

theorem eq_inf_of_isinf {v : Double} (h : v.isinf = true) : v = Double.inf v.sign := by
  obtain ⟨sg, e, f⟩ := v
  simp only [Double.isinf, Bool.and_eq_true, beq_iff_eq] at h
  simp only [Double.inf, Double.mk.injEq, true_and]
  exact ⟨Fin.ext h.1, Fin.ext h.2⟩

theorem pos_inf_ge_CLAMP : Double.ge (Double.inf false) CLAMP_VALUE = true := by
  rw [CLAMP_VALUE_bits]; decide

theorem neg_inf_le_neg_CLAMP : Double.le (Double.inf true) (Double.neg CLAMP_VALUE) = true := by
  rw [CLAMP_VALUE_bits]; decide

theorem cleanBound_of_inf {v : Double} (h : v.isinf = true) :
    cleanBound v = if v.sign then Double.neg MAX_VALUE else MAX_VALUE := by
  rw [eq_inf_of_isinf h]
  cases v.sign
  · simpa using cleanBound_of_ge pos_inf_ge_CLAMP
  · simpa using cleanBound_of_le neg_inf_le_neg_CLAMP

theorem not_nan_of_ge {v : Double} (h : Double.ge v CLAMP_VALUE = true) : v.isnan = false := by
  simp only [Double.ge, Bool.and_eq_true, Bool.not_eq_true', decide_eq_true_eq] at h
  exact h.1.1

theorem not_nan_of_le {v : Double} (h : Double.le v (Double.neg CLAMP_VALUE) = true) :
    v.isnan = false := by
  simp only [Double.le, Bool.and_eq_true, Bool.not_eq_true', decide_eq_true_eq] at h
  exact h.1.1

theorem cleanWidth_of_big {v : Double}
    (h : Double.ge v CLAMP_VALUE = true ∨ Double.le v (Double.neg CLAMP_VALUE) = true) :
    cleanWidth v = if v.isinf then Double.zero else v := by
  have hs : Double.lt (Double.abs v) UMBRAL_CERO = false := by
    rcases h with h | h
    · exact not_small_of_ge h
    · exact not_small_of_le h
  have hn : v.isnan = false := by
    rcases h with h | h
    · exact not_nan_of_ge h
    · exact not_nan_of_le h
  unfold cleanWidth
  simp [hs, hn]

theorem finite_of_not {v : Double} (h : ¬ ((v.isnan || v.isinf) = true)) :
    v.isnan = false ∧ v.isinf = false := by
  simpa using h

theorem cleanBound_finite (v : Double) :
    (cleanBound v).isnan = false ∧ (cleanBound v).isinf = false := by
  unfold cleanBound
  dsimp only
  split_ifs with h1 h2 h3 h4 h5 h6 h7 h8 <;>
    first
      | exact finite_of_not (by assumption)
      | exact ⟨by decide, by decide⟩

theorem cleanWidth_finite (v : Double) :
    (cleanWidth v).isnan = false ∧ (cleanWidth v).isinf = false := by
  unfold cleanWidth
  dsimp only
  split_ifs <;>
    first
      | exact finite_of_not (by assumption)
      | exact ⟨by decide, by decide⟩

/-- A value that none of the three rules touches. -/
theorem cleanBound_of_untouched {v : Double}
    (h1 : ¬ Double.lt (Double.abs v) UMBRAL_CERO = true)
    (h2 : ¬ Double.ge v CLAMP_VALUE = true)
    (h3 : ¬ Double.le v (Double.neg CLAMP_VALUE) = true)
    (h4 : ¬ (v.isnan || v.isinf) = true) : cleanBound v = v := by
  unfold cleanBound
  simp only [h1, h2, h3, h4, if_false, Bool.false_eq_true]

theorem cleanWidth_of_untouched {v : Double}
    (h1 : ¬ Double.lt (Double.abs v) UMBRAL_CERO = true)
    (h4 : ¬ (v.isnan || v.isinf) = true) : cleanWidth v = v := by
  unfold cleanWidth
  simp only [h1, h4, if_false, Bool.false_eq_true]

theorem cleanBound_idem (v : Double) : cleanBound (cleanBound v) = cleanBound v := by
  by_cases h1 : Double.lt (Double.abs v) UMBRAL_CERO = true
  · rw [cleanBound_of_small h1, cleanBound_zero]
  by_cases h2 : Double.ge v CLAMP_VALUE = true
  · rw [cleanBound_of_ge h2, cleanBound_MAX]
  by_cases h3 : Double.le v (Double.neg CLAMP_VALUE) = true
  · rw [cleanBound_of_le h3, cleanBound_neg_MAX]
  by_cases h4 : (v.isnan || v.isinf) = true
  · have : cleanBound v = Double.zero := by
      unfold cleanBound
      simp only [h1, h2, h3, h4, if_false, if_true, Bool.false_eq_true]
    rw [this, cleanBound_zero]
  · rw [cleanBound_of_untouched h1 h2 h3 h4, cleanBound_of_untouched h1 h2 h3 h4]

theorem cleanWidth_idem (v : Double) : cleanWidth (cleanWidth v) = cleanWidth v := by
  by_cases h1 : Double.lt (Double.abs v) UMBRAL_CERO = true
  · rw [cleanWidth_of_small h1, cleanWidth_zero]
  by_cases h4 : (v.isnan || v.isinf) = true
  · have : cleanWidth v = Double.zero := by
      unfold cleanWidth
      simp only [h1, h4, if_false, if_true, Bool.false_eq_true]
    rw [this, cleanWidth_zero]
  · rw [cleanWidth_of_untouched h1 h4, cleanWidth_of_untouched h1 h4]

/-! ## The clamp on the objective bounds -/

/-- C1: a raw `objective_lower_bound` or `objective_upper_bound` that is `>= 1e7` leaves
lines 78-94 as `MAX_VALUE`, the double that the literal `9223372036854775807` denotes, and one
that is `<= -1e7` leaves them as `-MAX_VALUE`. -/
theorem clamp_objective_bounds (s : Locals) :
    (Double.ge s.lb_f_obj CLAMP_VALUE = true → (sanitize s).lb_f_obj = MAX_VALUE) ∧
    (Double.ge s.ub_f_obj CLAMP_VALUE = true → (sanitize s).ub_f_obj = MAX_VALUE) ∧
    (Double.le s.lb_f_obj (Double.neg CLAMP_VALUE) = true →
      (sanitize s).lb_f_obj = Double.neg MAX_VALUE) ∧
    (Double.le s.ub_f_obj (Double.neg CLAMP_VALUE) = true →
      (sanitize s).ub_f_obj = Double.neg MAX_VALUE) := by
  rw [sanitize_eq]
  exact ⟨cleanBound_of_ge, cleanBound_of_ge, cleanBound_of_le, cleanBound_of_le⟩

/-- Witness of C1: the bounds `[1e7, +Infinity]` and the bounds `[-Infinity, -1e7]`. -/
theorem clamp_objective_bounds_witness :
    ((sanitize ⟨CLAMP_VALUE, Double.inf false, Double.zero, Double.zero, Double.zero⟩).lb_f_obj
        = MAX_VALUE ∧
      (sanitize ⟨CLAMP_VALUE, Double.inf false, Double.zero, Double.zero, Double.zero⟩).ub_f_obj
        = MAX_VALUE) ∧
    ((sanitize ⟨Double.inf true, Double.neg CLAMP_VALUE, Double.zero, Double.zero,
        Double.zero⟩).lb_f_obj = Double.neg MAX_VALUE ∧
      (sanitize ⟨Double.inf true, Double.neg CLAMP_VALUE, Double.zero, Double.zero,
        Double.zero⟩).ub_f_obj = Double.neg MAX_VALUE) :=
  ⟨⟨(clamp_objective_bounds
        ⟨CLAMP_VALUE, Double.inf false, Double.zero, Double.zero, Double.zero⟩).1
      (by rw [CLAMP_VALUE_bits]; decide),
    (clamp_objective_bounds
        ⟨CLAMP_VALUE, Double.inf false, Double.zero, Double.zero, Double.zero⟩).2.1
      (by rw [CLAMP_VALUE_bits]; decide)⟩,
   ⟨(clamp_objective_bounds
        ⟨Double.inf true, Double.neg CLAMP_VALUE, Double.zero, Double.zero, Double.zero⟩).2.2.1
      (by rw [CLAMP_VALUE_bits]; decide),
    (clamp_objective_bounds
        ⟨Double.inf true, Double.neg CLAMP_VALUE, Double.zero, Double.zero, Double.zero⟩).2.2.2
      (by rw [CLAMP_VALUE_bits]; decide)⟩⟩

/-! ## Non-finite raw values -/

/-- C2, as stated, fails: a raw `objective_lower_bound` of `+Infinity` passes the test of
line 84 before line 90 is reached, and leaves lines 78-94 as `MAX_VALUE`, not as `0.0`. -/
theorem infinite_bound_not_zeroed :
    (Double.inf false).isinf = true ∧
    (sanitize ⟨Double.inf false, Double.inf false, Double.zero, Double.zero,
      Double.zero⟩).lb_f_obj = MAX_VALUE ∧
    MAX_VALUE ≠ Double.zero := by
  refine ⟨by decide, ?_, ?_⟩
  · rw [sanitize_eq]
    exact cleanBound_of_ge pos_inf_ge_CLAMP
  · rw [MAX_VALUE_bits]; decide

/-- C2, amended: a raw NaN leaves lines 78-94 as `0.0` in each of the five floating features;
a raw infinity leaves them as `0.0` in the three width features, and in the two objective
bounds as the clamp sentinel of its sign, `MAX_VALUE` or `-MAX_VALUE`. -/
theorem nonfinite_replacement (s : Locals) :
    (s.lb_f_obj.isnan = true → (sanitize s).lb_f_obj = Double.zero) ∧
    (s.ub_f_obj.isnan = true → (sanitize s).ub_f_obj = Double.zero) ∧
    (s.search_space.isnan = true → (sanitize s).search_space = Double.zero) ∧
    (s.bigger_diam.isnan = true → (sanitize s).bigger_diam = Double.zero) ∧
    (s.lower_diam.isnan = true → (sanitize s).lower_diam = Double.zero) ∧
    (s.search_space.isinf = true → (sanitize s).search_space = Double.zero) ∧
    (s.bigger_diam.isinf = true → (sanitize s).bigger_diam = Double.zero) ∧
    (s.lower_diam.isinf = true → (sanitize s).lower_diam = Double.zero) ∧
    (s.lb_f_obj.isinf = true →
      (sanitize s).lb_f_obj = if s.lb_f_obj.sign then Double.neg MAX_VALUE else MAX_VALUE) ∧
    (s.ub_f_obj.isinf = true →
      (sanitize s).ub_f_obj = if s.ub_f_obj.sign then Double.neg MAX_VALUE else MAX_VALUE) := by
  rw [sanitize_eq]
  exact ⟨cleanBound_of_nan, cleanBound_of_nan, cleanWidth_of_nan, cleanWidth_of_nan,
    cleanWidth_of_nan, cleanWidth_of_inf, cleanWidth_of_inf, cleanWidth_of_inf,
    cleanBound_of_inf, cleanBound_of_inf⟩

/-- Witness of the amended C2: five NaN, then the bounds `[-Infinity, +Infinity]` with three
infinite widths. -/
theorem nonfinite_replacement_witness :
    ((sanitize ⟨Double.nan, Double.nan, Double.nan, Double.nan, Double.nan⟩).lb_f_obj
        = Double.zero ∧
      (sanitize ⟨Double.nan, Double.nan, Double.nan, Double.nan, Double.nan⟩).ub_f_obj
        = Double.zero ∧
      (sanitize ⟨Double.nan, Double.nan, Double.nan, Double.nan, Double.nan⟩).search_space
        = Double.zero ∧
      (sanitize ⟨Double.nan, Double.nan, Double.nan, Double.nan, Double.nan⟩).bigger_diam
        = Double.zero ∧
      (sanitize ⟨Double.nan, Double.nan, Double.nan, Double.nan, Double.nan⟩).lower_diam
        = Double.zero) ∧
    ((sanitize ⟨Double.inf true, Double.inf false, Double.inf false, Double.inf false,
        Double.inf true⟩).search_space = Double.zero ∧
      (sanitize ⟨Double.inf true, Double.inf false, Double.inf false, Double.inf false,
        Double.inf true⟩).bigger_diam = Double.zero ∧
      (sanitize ⟨Double.inf true, Double.inf false, Double.inf false, Double.inf false,
        Double.inf true⟩).lower_diam = Double.zero ∧
      (sanitize ⟨Double.inf true, Double.inf false, Double.inf false, Double.inf false,
        Double.inf true⟩).lb_f_obj = Double.neg MAX_VALUE ∧
      (sanitize ⟨Double.inf true, Double.inf false, Double.inf false, Double.inf false,
        Double.inf true⟩).ub_f_obj = MAX_VALUE) := by
  obtain ⟨a1, a2, a3, a4, a5, -⟩ :=
    nonfinite_replacement ⟨Double.nan, Double.nan, Double.nan, Double.nan, Double.nan⟩
  obtain ⟨-, -, -, -, -, b1, b2, b3, b4, b5⟩ := nonfinite_replacement
    ⟨Double.inf true, Double.inf false, Double.inf false, Double.inf false, Double.inf true⟩
  exact ⟨⟨a1 (by decide), a2 (by decide), a3 (by decide), a4 (by decide), a5 (by decide)⟩,
    b1 (by decide), b2 (by decide), b3 (by decide), b4 (by decide), b5 (by decide)⟩

/-! ## The width features are not clamped -/

/-- C3, as stated, fails: a raw `total_interval_width` of `1e7` leaves lines 78-94 as `1e7`;
lines 84-88 rewrite `lb_f_obj` and `ub_f_obj` only. -/
theorem width_not_clamped :
    Double.ge CLAMP_VALUE CLAMP_VALUE = true ∧
    (sanitize ⟨Double.zero, Double.zero, CLAMP_VALUE, CLAMP_VALUE, CLAMP_VALUE⟩).search_space
      = CLAMP_VALUE ∧
    CLAMP_VALUE ≠ MAX_VALUE := by
  have hge : Double.ge CLAMP_VALUE CLAMP_VALUE = true := by rw [CLAMP_VALUE_bits]; decide
  refine ⟨hge, ?_, ?_⟩
  · rw [sanitize_eq]
    show cleanWidth CLAMP_VALUE = CLAMP_VALUE
    rw [cleanWidth_of_big (Or.inl hge), CLAMP_VALUE_bits]
    decide
  · rw [MAX_VALUE_bits, CLAMP_VALUE_bits]; decide

/-- C3, amended: the clamp rule is not applied to the three width features. A raw
`total_interval_width`, `max_interval_width` or `min_interval_width` that is `>= 1e7` or
`<= -1e7` leaves lines 78-94 unchanged when it is finite, and as `0.0` when it is an infinity. -/
theorem width_out_of_range (s : Locals) :
    (Double.ge s.search_space CLAMP_VALUE = true ∨
        Double.le s.search_space (Double.neg CLAMP_VALUE) = true →
      (sanitize s).search_space = if s.search_space.isinf then Double.zero else s.search_space) ∧
    (Double.ge s.bigger_diam CLAMP_VALUE = true ∨
        Double.le s.bigger_diam (Double.neg CLAMP_VALUE) = true →
      (sanitize s).bigger_diam = if s.bigger_diam.isinf then Double.zero else s.bigger_diam) ∧
    (Double.ge s.lower_diam CLAMP_VALUE = true ∨
        Double.le s.lower_diam (Double.neg CLAMP_VALUE) = true →
      (sanitize s).lower_diam = if s.lower_diam.isinf then Double.zero else s.lower_diam) := by
  rw [sanitize_eq]
  exact ⟨cleanWidth_of_big, cleanWidth_of_big, cleanWidth_of_big⟩

/-- Witness of the amended C3: the widths `1e7`, `+Infinity` and `-1e7`. -/
theorem width_out_of_range_witness :
    (sanitize ⟨Double.zero, Double.zero, CLAMP_VALUE, Double.inf false,
        Double.neg CLAMP_VALUE⟩).search_space = CLAMP_VALUE ∧
    (sanitize ⟨Double.zero, Double.zero, CLAMP_VALUE, Double.inf false,
        Double.neg CLAMP_VALUE⟩).bigger_diam = Double.zero ∧
    (sanitize ⟨Double.zero, Double.zero, CLAMP_VALUE, Double.inf false,
        Double.neg CLAMP_VALUE⟩).lower_diam = Double.neg CLAMP_VALUE := by
  have h := width_out_of_range
    ⟨Double.zero, Double.zero, CLAMP_VALUE, Double.inf false, Double.neg CLAMP_VALUE⟩
  obtain ⟨h1, h2, h3⟩ := h
  have e1 := h1 (Or.inl (by rw [CLAMP_VALUE_bits]; decide))
  have e2 := h2 (Or.inl (by rw [CLAMP_VALUE_bits]; decide))
  have e3 := h3 (Or.inr (by rw [CLAMP_VALUE_bits]; decide))
  refine ⟨?_, ?_, ?_⟩
  · rw [e1, CLAMP_VALUE_bits]; decide
  · rw [e2]; decide
  · rw [e3, CLAMP_VALUE_bits]; decide

/-! ## Idempotence, zero-snap, finiteness -/

/-- C4: running lines 78-94 on locals that already went through them changes none of the five
floating features, whatever the raw values were (NaN, infinities and both zeros included). -/
theorem sanitize_idempotent (s : Locals) : sanitize (sanitize s) = sanitize s := by
  rw [sanitize_eq (sanitize s), sanitize_eq s]
  simp only [cleanBound_idem, cleanWidth_idem]

/-- C5: in each of the five floating features a raw value `v` with `std::abs(v) < 1e-7`, the
test of lines 78-82 against `UMBRAL_CERO`, leaves lines 78-94 as `0.0`. -/
theorem zero_snap (s : Locals) :
    (Double.lt (Double.abs s.lb_f_obj) UMBRAL_CERO = true →
      (sanitize s).lb_f_obj = Double.zero) ∧
    (Double.lt (Double.abs s.ub_f_obj) UMBRAL_CERO = true →
      (sanitize s).ub_f_obj = Double.zero) ∧
    (Double.lt (Double.abs s.search_space) UMBRAL_CERO = true →
      (sanitize s).search_space = Double.zero) ∧
    (Double.lt (Double.abs s.bigger_diam) UMBRAL_CERO = true →
      (sanitize s).bigger_diam = Double.zero) ∧
    (Double.lt (Double.abs s.lower_diam) UMBRAL_CERO = true →
      (sanitize s).lower_diam = Double.zero) := by
  rw [sanitize_eq]
  exact ⟨cleanBound_of_small, cleanBound_of_small, cleanWidth_of_small, cleanWidth_of_small,
    cleanWidth_of_small⟩

/-- Witness of C5: the raw values `-1e-8`, `-0.0`, the smallest subnormal, `0.0` and `-1e-8`. -/
theorem zero_snap_witness :
    sanitize ⟨minusTiny, Double.neg Double.zero, ⟨false, 0, 1⟩, Double.zero, minusTiny⟩
      = ⟨Double.zero, Double.zero, Double.zero, Double.zero, Double.zero⟩ := by
  obtain ⟨h1, h2, h3, h4, h5⟩ :=
    zero_snap ⟨minusTiny, Double.neg Double.zero, ⟨false, 0, 1⟩, Double.zero, minusTiny⟩
  have e1 := h1 (by rw [UMBRAL_CERO_bits, minusTiny_bits]; decide)
  have e2 := h2 (by rw [UMBRAL_CERO_bits]; decide)
  have e3 := h3 (by rw [UMBRAL_CERO_bits]; decide)
  have e4 := h4 (by rw [UMBRAL_CERO_bits]; decide)
  have e5 := h5 (by rw [UMBRAL_CERO_bits, minusTiny_bits]; decide)
  generalize sanitize _ = r at e1 e2 e3 e4 e5
  obtain ⟨r1, r2, r3, r4, r5⟩ := r
  simp only at e1 e2 e3 e4 e5
  rw [e1, e2, e3, e4, e5]

/-- C6: whatever the five raw values are, none of the five floating features that leave lines
78-94 is NaN and none is an infinity. -/
theorem sanitize_finite (s : Locals) :
    ((sanitize s).lb_f_obj.isnan = false ∧ (sanitize s).lb_f_obj.isinf = false) ∧
    ((sanitize s).ub_f_obj.isnan = false ∧ (sanitize s).ub_f_obj.isinf = false) ∧
    ((sanitize s).search_space.isnan = false ∧ (sanitize s).search_space.isinf = false) ∧
    ((sanitize s).bigger_diam.isnan = false ∧ (sanitize s).bigger_diam.isinf = false) ∧
    ((sanitize s).lower_diam.isnan = false ∧ (sanitize s).lower_diam.isinf = false) := by
  rw [sanitize_eq]
  exact ⟨cleanBound_finite _, cleanBound_finite _, cleanWidth_finite _, cleanWidth_finite _,
    cleanWidth_finite _⟩

/-! ## The accumulation loop -/

theorem sumLoop_drop (box : IntervalVector) :
    ∀ (n i : Nat) (acc : Double), box.length - i = n →
      sumLoop box i acc
        = (box.drop i).foldl (fun a x => Double.add a (Double.sub x.ub x.lb)) acc := by
  intro n
  induction n with
  | zero =>
    intro i acc h
    have hi : ¬ i < box.length := by omega
    rw [sumLoop, dif_neg hi, List.drop_eq_nil_of_le (by omega)]
    rfl
  | succ n ih =>
    intro i acc h
    have hi : i < box.length := by omega
    rw [sumLoop, dif_pos hi, List.drop_eq_getElem_cons hi, List.foldl_cons]
    rw [ih (i + 1) _ (by omega)]
    rfl

theorem sumLoop_foldl (box : IntervalVector) (acc : Double) :
    sumLoop box 0 acc = box.foldl (fun a x => Double.add a (Double.sub x.ub x.lb)) acc := by
  rw [sumLoop_drop box (box.length - 0) 0 acc rfl, List.drop_zero]

/-! ## Runs of `main` -/

theorem extract_no_goal (sys : System) (h : sys.goal = none) :
    extract sys = .ok ⟨Double.zero, Double.zero, sumLoop sys.box 0 Double.zero,
      IntervalVector.max_diam sys.box, IntervalVector.min_diam sys.box⟩ := by
  unfold extract
  rw [h]
  rfl

theorem features_no_goal (sys : System) (h : sys.goal = none) :
    features sys = .ok (sanitize ⟨Double.zero, Double.zero, sumLoop sys.box 0 Double.zero,
      IntervalVector.max_diam sys.box, IntervalVector.min_diam sys.box⟩) := by
  unfold features
  rw [extract_no_goal sys h]
  rfl

theorem main_ok (env : Env) (prog filename : String) (rest : List String) (w : World)
    (sys : System) (s : Locals) (hload : env.load filename = .ok sys)
    (hfeat : features sys = .ok s) (hopen : env.canOpen = true) :
    main env (prog :: filename :: rest) w
      = (0, { w with temp_txt := some (outputLine sys.nb_var sys.nb_ctr s) }) := by
  simp [main, tryBlock, hload, hfeat, hopen, bind, Except.bind, pure, Except.pure]

theorem main_error (env : Env) (prog filename : String) (rest : List String) (w : World)
    (e : Exc) (h : tryBlock env filename w = .error e) :
    (main env (prog :: filename :: rest) w).1 = 1 ∧
    (main env (prog :: filename :: rest) w).2.temp_txt = w.temp_txt := by
  simp only [main, h]
  cases e <;> exact ⟨rfl, rfl⟩

theorem tryBlock_load_error (env : Env) (filename : String) (w : World) (e : Exc)
    (h : env.load filename = .error e) : tryBlock env filename w = .error e := by
  simp [tryBlock, h, bind, Except.bind]

theorem tryBlock_goal_error (env : Env) (filename : String) (w : World) (e : Exc)
    (sys : System) (goal : IntervalVector → Except Exc Interval)
    (hload : env.load filename = .ok sys) (hgoal : sys.goal = some goal)
    (heval : goal sys.box = .error e) : tryBlock env filename w = .error e := by
  simp [tryBlock, features, extract, hload, hgoal, heval, bind, Except.bind]

/-! ## Problems without an objective -/

/-- C7: when the problem loads, has no objective (`sys.goal` is null) and `temp.txt` opens,
`main` returns 0 and writes the line of locals whose `lb_f_obj` and `ub_f_obj` are both `0.0`,
printed as `0.00000000000000000`, whatever the box and the counts are. -/
theorem no_objective_bounds_zero (env : Env) (prog filename : String) (rest : List String)
    (w : World) (sys : System) (hload : env.load filename = .ok sys)
    (hgoal : sys.goal = none) (hopen : env.canOpen = true) :
    ∃ s : Locals,
      main env (prog :: filename :: rest) w
        = (0, { w with temp_txt := some (outputLine sys.nb_var sys.nb_ctr s) }) ∧
      s.lb_f_obj = Double.zero ∧ s.ub_f_obj = Double.zero ∧
      fixed17 s.lb_f_obj = "0.00000000000000000" ∧
      fixed17 s.ub_f_obj = "0.00000000000000000" := by
  refine ⟨_, main_ok env prog filename rest w sys _ hload (features_no_goal sys hgoal) hopen,
    ?_⟩
  rw [sanitize_eq]
  refine ⟨cleanBound_zero, cleanBound_zero, ?_, ?_⟩
  · show fixed17 (cleanBound Double.zero) = _
    rw [cleanBound_zero]; decide
  · show fixed17 (cleanBound Double.zero) = _
    rw [cleanBound_zero]; decide

/-- Witness of C7: the problem `wideSystem`. -/
theorem no_objective_bounds_zero_witness :
    ∃ s : Locals,
      main ⟨fun _ => .ok wideSystem, true⟩ ["foo", "wide.bch"] ⟨none, ""⟩
        = (0, { temp_txt := some (outputLine 3 0 s), cerr := "" }) ∧
      s.lb_f_obj = Double.zero ∧ s.ub_f_obj = Double.zero ∧
      fixed17 s.lb_f_obj = "0.00000000000000000" ∧
      fixed17 s.ub_f_obj = "0.00000000000000000" :=
  no_objective_bounds_zero ⟨fun _ => .ok wideSystem, true⟩ "foo" "wide.bch" [] ⟨none, ""⟩
    wideSystem rfl rfl rfl

/-! ## End to end -/

set_option maxRecDepth 100000 in
theorem scenarioOne_features :
    features scenarioOne
      = .ok ⟨Double.zero, Double.zero, Double.ofInt 2, Double.ofInt 1, Double.ofInt 1⟩ := by
  rw [features_no_goal scenarioOne rfl, sumLoop_foldl, sanitize_eq]
  unfold cleanBound cleanWidth
  rw [UMBRAL_CERO_bits, CLAMP_VALUE_bits, MAX_VALUE_bits]
  refine congrArg Except.ok ?_
  decide

set_option maxRecDepth 100000 in
theorem scenarioOne_line :
    outputLine 2 1 ⟨Double.zero, Double.zero, Double.ofInt 2, Double.ofInt 1, Double.ofInt 1⟩
      = "((2.00000000000000000 ; 1.00000000000000000 ; 0.00000000000000000 ; 0.00000000000000000 ; 2.00000000000000000 ; 1.00000000000000000 ; 1.00000000000000000))" := by
  decide

/-- C8: when the loader yields the problem with 2 variables each bounded to `[0, 1]`, 1
constraint and no objective, and `temp.txt` opens, `main` returns 0 and `temp.txt` holds
exactly the line of scenario 1. -/
theorem scenario_one_output (env : Env) (prog filename : String) (rest : List String)
    (w : World) (hload : env.load filename = .ok scenarioOne) (hopen : env.canOpen = true) :
    main env (prog :: filename :: rest) w
      = (0, { w with temp_txt := some "((2.00000000000000000 ; 1.00000000000000000 ; 0.00000000000000000 ; 0.00000000000000000 ; 2.00000000000000000 ; 1.00000000000000000 ; 1.00000000000000000))" }) := by
  rw [main_ok env prog filename rest w scenarioOne _ hload scenarioOne_features hopen]
  have hline := scenarioOne_line
  simp only [scenarioOne, hline]

/-- Witness of C8: a run on `two.bch` in a directory that holds an older `temp.txt`. -/
theorem scenario_one_output_witness :
    main ⟨fun _ => .ok scenarioOne, true⟩ ["./foo", "two.bch"] ⟨some "((old))", ""⟩
      = (0, { temp_txt := some "((2.00000000000000000 ; 1.00000000000000000 ; 0.00000000000000000 ; 0.00000000000000000 ; 2.00000000000000000 ; 1.00000000000000000 ; 1.00000000000000000))", cerr := "" }) :=
  scenario_one_output ⟨fun _ => .ok scenarioOne, true⟩ "./foo" "two.bch" [] ⟨some "((old))", ""⟩
    rfl rfl

/-! ## Failing runs -/

/-- C9: when the argument is missing (`argc < 2`), when the loader throws, and when the
evaluation of the objective throws, `main` returns 1 and `temp.txt` is after the run what it
was before it. -/
theorem failure_leaves_output (env : Env) (argv : List String) (w : World) :
    (argv.length < 2 →
      (main env argv w).1 = 1 ∧ (main env argv w).2.temp_txt = w.temp_txt) ∧
    (∀ (prog filename : String) (rest : List String) (e : Exc),
      argv = prog :: filename :: rest → env.load filename = .error e →
      (main env argv w).1 = 1 ∧ (main env argv w).2.temp_txt = w.temp_txt) ∧
    (∀ (prog filename : String) (rest : List String) (sys : System)
        (goal : IntervalVector → Except Exc Interval) (e : Exc),
      argv = prog :: filename :: rest → env.load filename = .ok sys →
      sys.goal = some goal → goal sys.box = .error e →
      (main env argv w).1 = 1 ∧ (main env argv w).2.temp_txt = w.temp_txt) := by
  refine ⟨?_, ?_, ?_⟩
  · intro h
    match argv, h with
    | [], _ => exact ⟨rfl, rfl⟩
    | [_], _ => exact ⟨rfl, rfl⟩
    | _ :: _ :: _, h => simp only [List.length_cons] at h; omega
  · intro prog filename rest e hargv hload
    subst hargv
    exact main_error env prog filename rest w e (tryBlock_load_error env filename w e hload)
  · intro prog filename rest sys goal e hargv hload hgoal heval
    subst hargv
    exact main_error env prog filename rest w e
      (tryBlock_goal_error env filename w e sys goal hload hgoal heval)

/-- Witness of C9: no argument; a loader that rejects the file; an objective that throws. Each
run starts with an older `temp.txt`. -/
theorem failure_leaves_output_witness :
    ((main ⟨fun _ => .ok scenarioOne, true⟩ ["./foo"] ⟨some "((old))", ""⟩).1 = 1 ∧
      (main ⟨fun _ => .ok scenarioOne, true⟩ ["./foo"] ⟨some "((old))", ""⟩).2.temp_txt
        = some "((old))") ∧
    ((main ⟨fun _ => .error (.std "bad file"), true⟩ ["./foo", "bad.bch"]
        ⟨some "((old))", ""⟩).1 = 1 ∧
      (main ⟨fun _ => .error (.std "bad file"), true⟩ ["./foo", "bad.bch"]
        ⟨some "((old))", ""⟩).2.temp_txt = some "((old))") ∧
    ((main ⟨fun _ => .ok throwingSystem, true⟩ ["./foo", "p.bch"] ⟨some "((old))", ""⟩).1 = 1 ∧
      (main ⟨fun _ => .ok throwingSystem, true⟩ ["./foo", "p.bch"]
        ⟨some "((old))", ""⟩).2.temp_txt = some "((old))") :=
  ⟨(failure_leaves_output ⟨fun _ => .ok scenarioOne, true⟩ ["./foo"] ⟨some "((old))", ""⟩).1
      (by decide),
    (failure_leaves_output ⟨fun _ => .error (.std "bad file"), true⟩ ["./foo", "bad.bch"]
      ⟨some "((old))", ""⟩).2.1 "./foo" "bad.bch" [] (.std "bad file") rfl rfl,
    (failure_leaves_output ⟨fun _ => .ok throwingSystem, true⟩ ["./foo", "p.bch"]
      ⟨some "((old))", ""⟩).2.2 "./foo" "p.bch" [] throwingSystem
      (fun _ => .error (.ibex "eval")) (.ibex "eval") rfl rfl rfl rfl⟩

/-! ## The total width -/

/-- C10: whenever lines 47-75 yield raw features for a problem, the raw `search_space` is the
sum of the widths `ub - lb` of the dimensions of the initial box, accumulated from `0.0` in
index order; on a box without dimensions it is `0.0`. -/
theorem total_width_is_sum (sys : System) (raw : Locals) (h : extract sys = .ok raw) :
    raw.search_space
        = sys.box.foldl (fun acc x => Double.add acc (Double.sub x.ub x.lb)) Double.zero ∧
    (sys.box = [] → raw.search_space = Double.zero) := by
  have hs : raw.search_space = sumLoop sys.box 0 Double.zero := by
    unfold extract at h
    cases hg : sys.goal with
    | none =>
      rw [hg] at h
      injection h with h
      rw [← h]
    | some goal =>
      rw [hg] at h
      cases he : goal sys.box with
      | error e => simp [he, bind, Except.bind] at h
      | ok iv =>
        simp only [he, bind, Except.bind, pure, Except.pure] at h
        injection h with h
        rw [← h]
  rw [hs, sumLoop_foldl]
  refine ⟨rfl, ?_⟩
  intro hbox
  rw [hbox]
  rfl

/-- Witness of C10: the box of scenario 1, and a box without dimensions. -/
theorem total_width_is_sum_witness :
    (sumLoop scenarioOne.box 0 Double.zero
        = scenarioOne.box.foldl (fun acc x => Double.add acc (Double.sub x.ub x.lb)) Double.zero ∧
      (scenarioOne.box = [] → sumLoop scenarioOne.box 0 Double.zero = Double.zero)) ∧
    sumLoop emptySystem.box 0 Double.zero = Double.zero :=
  ⟨total_width_is_sum scenarioOne _ (extract_no_goal scenarioOne rfl),
    (total_width_is_sum emptySystem _ (extract_no_goal emptySystem rfl)).2 rfl⟩

/-! ## Values inside the range pass through -/

theorem untouched_of_inPassRange {v : Double} (h : inPassRange v = true) :
    ¬ Double.lt (Double.abs v) UMBRAL_CERO = true ∧ ¬ Double.ge v CLAMP_VALUE = true ∧
    ¬ Double.le v (Double.neg CLAMP_VALUE) = true ∧ ¬ (v.isnan || v.isinf) = true := by
  have h1 := Double.toOrd_le_mag v
  have h2 := Double.neg_mag_le_toOrd v
  simp only [inPassRange, Double.ge, Double.lt, Double.abs_toOrd, Double.abs_isnan,
    Bool.and_eq_true, Bool.not_eq_true', decide_eq_true_eq] at h
  obtain ⟨⟨⟨hn, hi⟩, ⟨-, hU⟩⟩, ⟨-, hC⟩⟩ := h
  refine ⟨?_, ?_, ?_, ?_⟩
  · simp only [Double.lt, Double.abs_toOrd, Double.abs_isnan, Bool.and_eq_true,
      decide_eq_true_eq, not_and, not_lt]
    intro _
    exact hU
  · simp only [Double.ge, Bool.and_eq_true, decide_eq_true_eq, not_and, not_le]
    intro _
    omega
  · simp only [Double.le, neg_CLAMP_toOrd, Bool.and_eq_true, decide_eq_true_eq, not_and, not_le]
    intro _
    omega
  · simp [hn, hi]

theorem cleanBound_of_inPassRange {v : Double} (h : inPassRange v = true) :
    cleanBound v = v := by
  obtain ⟨h1, h2, h3, h4⟩ := untouched_of_inPassRange h
  exact cleanBound_of_untouched h1 h2 h3 h4

theorem cleanWidth_of_inPassRange {v : Double} (h : inPassRange v = true) :
    cleanWidth v = v := by
  obtain ⟨h1, -, -, h4⟩ := untouched_of_inPassRange h
  exact cleanWidth_of_untouched h1 h4

/-- C12: in each of the five floating features a finite raw value `v` with
`1e-7 <= |v| < 1e7` leaves lines 78-94 as it entered them. -/
theorem pass_through (s : Locals) :
    (inPassRange s.lb_f_obj = true → (sanitize s).lb_f_obj = s.lb_f_obj) ∧
    (inPassRange s.ub_f_obj = true → (sanitize s).ub_f_obj = s.ub_f_obj) ∧
    (inPassRange s.search_space = true → (sanitize s).search_space = s.search_space) ∧
    (inPassRange s.bigger_diam = true → (sanitize s).bigger_diam = s.bigger_diam) ∧
    (inPassRange s.lower_diam = true → (sanitize s).lower_diam = s.lower_diam) := by
  rw [sanitize_eq]
  exact ⟨cleanBound_of_inPassRange, cleanBound_of_inPassRange, cleanWidth_of_inPassRange,
    cleanWidth_of_inPassRange, cleanWidth_of_inPassRange⟩

/-- Witness of C12: the bounds `[-1e-7, 1e-7]` and the widths `1e7 - 2^-29`, `1.0` and `1e-7`. -/
theorem pass_through_witness :
    sanitize ⟨Double.neg UMBRAL_CERO, UMBRAL_CERO, belowClamp, ⟨false, 1023, 0⟩, UMBRAL_CERO⟩
      = ⟨Double.neg UMBRAL_CERO, UMBRAL_CERO, belowClamp, ⟨false, 1023, 0⟩, UMBRAL_CERO⟩ := by
  obtain ⟨h1, h2, h3, h4, h5⟩ := pass_through
    ⟨Double.neg UMBRAL_CERO, UMBRAL_CERO, belowClamp, ⟨false, 1023, 0⟩, UMBRAL_CERO⟩
  have e1 := h1 (by unfold inPassRange; rw [UMBRAL_CERO_bits, CLAMP_VALUE_bits]; decide)
  have e2 := h2 (by unfold inPassRange; rw [UMBRAL_CERO_bits, CLAMP_VALUE_bits]; decide)
  have e3 := h3 (by unfold inPassRange; rw [UMBRAL_CERO_bits, CLAMP_VALUE_bits]; decide)
  have e4 := h4 (by unfold inPassRange; rw [UMBRAL_CERO_bits, CLAMP_VALUE_bits]; decide)
  have e5 := h5 (by unfold inPassRange; rw [UMBRAL_CERO_bits, CLAMP_VALUE_bits]; decide)
  generalize sanitize _ = r at e1 e2 e3 e4 e5
  obtain ⟨r1, r2, r3, r4, r5⟩ := r
  simp only at e1 e2 e3 e4 e5
  rw [e1, e2, e3, e4, e5]

/-! ## The clean-up of the objective bounds keeps their order -/

theorem Double.toOrd_eq_or (v : Double) :
    v.toOrd = (v.mag : Int) ∨ v.toOrd = -(v.mag : Int) := by
  unfold Double.toOrd; split
  · exact Or.inr rfl
  · exact Or.inl rfl

theorem UMBRAL_pos : 0 < UMBRAL_CERO.toOrd := by
  rw [UMBRAL_CERO_bits]; decide

theorem CLAMP_lt_MAX : CLAMP_VALUE.toOrd < MAX_VALUE.toOrd := by
  rw [CLAMP_VALUE_bits, MAX_VALUE_bits]; decide

theorem neg_MAX_toOrd : (Double.neg MAX_VALUE).toOrd = -MAX_VALUE.toOrd := by
  rw [MAX_VALUE_bits]; decide

theorem zero_toOrd : Double.zero.toOrd = 0 := by decide

/-- The signed magnitude of a cleaned objective bound, from that of the raw bound. -/
theorem cleanBound_toOrd {v : Double} (hn : v.isnan = false) :
    (cleanBound v).toOrd =
      if (v.mag : Int) < UMBRAL_CERO.toOrd then 0
      else if CLAMP_VALUE.toOrd ≤ v.toOrd then MAX_VALUE.toOrd
      else if v.toOrd ≤ -CLAMP_VALUE.toOrd then -MAX_VALUE.toOrd
      else v.toOrd := by
  have hlt : Double.lt (Double.abs v) UMBRAL_CERO = decide ((v.mag : Int) < UMBRAL_CERO.toOrd) := by
    have hU : UMBRAL_CERO.isnan = false := by rw [UMBRAL_CERO_bits]; decide
    simp [Double.lt, Double.abs_toOrd, Double.abs_isnan, hn, hU]
  have hge : Double.ge v CLAMP_VALUE = decide (CLAMP_VALUE.toOrd ≤ v.toOrd) := by
    have hC : CLAMP_VALUE.isnan = false := by rw [CLAMP_VALUE_bits]; decide
    simp [Double.ge, hn, hC]
  have hle : Double.le v (Double.neg CLAMP_VALUE) = decide (v.toOrd ≤ -CLAMP_VALUE.toOrd) := by
    have hC : (Double.neg CLAMP_VALUE).isnan = false := by rw [CLAMP_VALUE_bits]; decide
    simp [Double.le, hn, hC, neg_CLAMP_toOrd]
  by_cases h1 : (v.mag : Int) < UMBRAL_CERO.toOrd
  · rw [if_pos h1, cleanBound_of_small (by rw [hlt]; exact decide_eq_true h1), zero_toOrd]
  rw [if_neg h1]
  by_cases h2 : CLAMP_VALUE.toOrd ≤ v.toOrd
  · rw [if_pos h2, cleanBound_of_ge (by rw [hge]; exact decide_eq_true h2)]
  rw [if_neg h2]
  by_cases h3 : v.toOrd ≤ -CLAMP_VALUE.toOrd
  · rw [if_pos h3, cleanBound_of_le (by rw [hle]; exact decide_eq_true h3), neg_MAX_toOrd]
  rw [if_neg h3]
  have hi : v.isinf = false := by
    by_contra hc
    have hc : v.isinf = true := by simpa using hc
    have hv := eq_inf_of_isinf hc
    cases hs : v.sign
    · rw [hs] at hv
      have := pos_inf_ge_CLAMP
      rw [← hv, hge] at this
      exact h2 (of_decide_eq_true this)
    · rw [hs] at hv
      have := neg_inf_le_neg_CLAMP
      rw [← hv, hle] at this
      exact h3 (of_decide_eq_true this)
  rw [cleanBound_of_untouched (by rw [hlt]; simpa using h1) (by rw [hge]; simpa using h2)
    (by rw [hle]; simpa using h3) (by simp [hn, hi])]

theorem cleanBound_mono {a b : Double} (h : Double.le a b = true) :
    Double.le (cleanBound a) (cleanBound b) = true := by
  simp only [Double.le, Bool.and_eq_true, Bool.not_eq_true', decide_eq_true_eq] at h
  obtain ⟨⟨ha, hb⟩, hab⟩ := h
  have ea := cleanBound_toOrd ha
  have eb := cleanBound_toOrd hb
  have h1 := UMBRAL_pos
  have h2 := UMBRAL_lt_CLAMP
  have h3 := CLAMP_lt_MAX
  have ca := Double.toOrd_eq_or a
  have cb := Double.toOrd_eq_or b
  simp only [Double.le, Bool.and_eq_true, Bool.not_eq_true', decide_eq_true_eq]
  refine ⟨⟨(cleanBound_finite a).1, (cleanBound_finite b).1⟩, ?_⟩
  rw [ea, eb]
  split_ifs <;> omega

/-- C13: for raw objective bounds with `lb <= ub` (which excludes NaN on either side and allows
infinite endpoints), the bounds that leave lines 78-94 satisfy `lb <= ub` again. -/
theorem sanitize_keeps_bound_order (s : Locals) (h : Double.le s.lb_f_obj s.ub_f_obj = true) :
    Double.le (sanitize s).lb_f_obj (sanitize s).ub_f_obj = true := by
  rw [sanitize_eq]
  exact cleanBound_mono h

/-- Witness of C13: the raw enclosure `[1.0, +Infinity]`. -/
theorem sanitize_keeps_bound_order_witness :
    Double.le
      (sanitize ⟨⟨false, 1023, 0⟩, Double.inf false, Double.zero, Double.zero,
        Double.zero⟩).lb_f_obj
      (sanitize ⟨⟨false, 1023, 0⟩, Double.inf false, Double.zero, Double.zero,
        Double.zero⟩).ub_f_obj = true :=
  sanitize_keeps_bound_order
    ⟨⟨false, 1023, 0⟩, Double.inf false, Double.zero, Double.zero, Double.zero⟩ (by decide)


/-! ## Conversion and printing of integers -/

theorem Double.bitLength_zero (fuel : Nat) : Double.bitLength fuel 0 = 0 := by
  cases fuel <;> simp [Double.bitLength]

theorem Double.bitLength_spec : ∀ (fuel n : Nat), n < 2 ^ fuel →
    n < 2 ^ Double.bitLength fuel n ∧ (0 < n → 2 ^ (Double.bitLength fuel n - 1) ≤ n)
  | 0, n, h => by
    have hn : n = 0 := by simpa using h
    subst hn
    simp [Double.bitLength]
  | fuel + 1, n, h => by
    by_cases hn : n = 0
    · subst hn
      simp [Double.bitLength]
    · have hlt : n / 2 < 2 ^ fuel := by
        rw [pow_succ] at h
        omega
      obtain ⟨ih1, ih2⟩ := Double.bitLength_spec fuel (n / 2) hlt
      have hb : Double.bitLength (fuel + 1) n = Double.bitLength fuel (n / 2) + 1 := by
        simp [Double.bitLength, hn]
      rw [hb]
      refine ⟨by rw [pow_succ]; omega, fun _ => ?_⟩
      rw [Nat.add_sub_cancel]
      by_cases h2 : n / 2 = 0
      · rw [h2, Double.bitLength_zero]
        simp
        omega
      · have h3 := ih2 (by omega)
        have hb1 : 1 ≤ Double.bitLength fuel (n / 2) := by
          by_contra hc
          have h0 : Double.bitLength fuel (n / 2) = 0 := by omega
          rw [h0] at ih1
          simp at ih1
          omega
        have h4 : 2 ^ Double.bitLength fuel (n / 2)
            = 2 * 2 ^ (Double.bitLength fuel (n / 2) - 1) := by
          conv_lhs => rw [← Nat.sub_add_cancel hb1]
          rw [pow_succ]
          ring
        omega


theorem Double.rne_of_dvd (q d : Nat) (hd : 0 < d) : Double.rne (q * d) d = q := by
  unfold Double.rne
  simp only [Nat.mul_mod_left, Nat.mul_zero]
  rw [if_pos hd, Nat.mul_div_cancel _ hd]

theorem Double.rne_shift (m s t : Nat) : Double.rne (m <<< s * t) (1 <<< s) = m * t := by
  rw [Nat.shiftLeft_eq, Nat.shiftLeft_eq, Nat.one_mul,
    show m * 2 ^ s * t = m * t * 2 ^ s by ring]
  exact Double.rne_of_dvd _ _ (by positivity)

/-- An integer magnitude below `2^53` is converted exactly (`s` is the scale `1074`). -/
theorem Double.round_exact (sg : Bool) (m s : Nat) (hs : s = 1074) (h1 : 0 < m)
    (h2 : m < 9007199254740992) :
    (Double.round sg (m <<< s) 1).mag = m <<< s ∧
    (Double.round sg (m <<< s) 1).sign = sg ∧
    (Double.round sg (m <<< s) 1).expo.val ≠ 2047 := by
  have hN : m <<< s = m * 2 ^ s := Nat.shiftLeft_eq _ _
  have hspos : 0 < 2 ^ s := by positivity
  have h53 : (2 : Nat) ^ 53 = 9007199254740992 := by norm_num
  have h52 : (2 : Nat) ^ 52 = 4503599627370496 := by norm_num
  have hhi : m * 2 ^ s < 2 ^ (53 + s) := by
    rw [pow_add, h53]
    exact Nat.mul_lt_mul_of_pos_right h2 hspos
  have hfuel : ∀ fuel, 53 + s ≤ fuel → m * 2 ^ s < 2 ^ fuel := fun fuel hle =>
    lt_of_lt_of_le hhi (Nat.pow_le_pow_right (by norm_num) hle)
  obtain ⟨hB1, hB2⟩ := Double.bitLength_spec 2200 (m * 2 ^ s) (hfuel 2200 (by omega))
  have hB2 := hB2 (by positivity)
  generalize hB : Double.bitLength 2200 (m * 2 ^ s) = B at hB1 hB2
  have hBlo : s < B := by
    by_contra hc
    have h3 : 2 ^ B ≤ 2 ^ s := Nat.pow_le_pow_right (by norm_num) (by omega)
    have h4 : 1 * 2 ^ s ≤ m * 2 ^ s := Nat.mul_le_mul_right _ h1
    omega
  have hBhi : B ≤ 53 + s := by
    by_contra hc
    have h3 : 2 ^ (53 + s) ≤ 2 ^ (B - 1) := Nat.pow_le_pow_right (by norm_num) (by omega)
    omega
  obtain ⟨k, hk⟩ : ∃ k, B = k + 53 := ⟨B - 53, by omega⟩
  subst hk
  obtain ⟨j, hj⟩ : ∃ j, s = k + j := ⟨s - k, by omega⟩
  have hsplit : m * 2 ^ s = m * 2 ^ j * 2 ^ k := by
    rw [hj, pow_add]; ring
  have hkpos : 0 < 2 ^ k := by positivity
  have hrlo : 4503599627370496 ≤ m * 2 ^ j := by
    have h3 : 2 ^ (k + 53 - 1) = 4503599627370496 * 2 ^ k := by
      rw [show k + 53 - 1 = 52 + k by omega, pow_add, h52]
    rw [h3, hsplit] at hB2
    exact Nat.le_of_mul_le_mul_right hB2 hkpos
  have hrhi : m * 2 ^ j < 9007199254740992 := by
    have h3 : 2 ^ (k + 53) = 9007199254740992 * 2 ^ k := by
      rw [show k + 53 = 53 + k by omega, pow_add, h53]
    rw [h3, hsplit] at hB1
    exact Nat.lt_of_mul_lt_mul_right hB1
  have hkk : Double.bitLength 2200 (m <<< s / 1) - 53 = k := by
    rw [Nat.div_one, hN, hB]; omega
  have hr : Double.rne (m <<< s) (1 <<< k) = m * 2 ^ j := by
    rw [hN, hsplit, Nat.shiftLeft_eq, Nat.one_mul]
    exact Double.rne_of_dvd _ _ hkpos
  generalize m * 2 ^ j = r at hrlo hrhi hr hsplit
  have e1 : ¬ r < 4503599627370496 := by omega
  have e2 : ¬ r = 9007199254740992 := by omega
  have e3 : k + 1 < 2047 := by omega
  simp only [Double.round, hkk, hr, dif_neg e1, if_neg e2, dif_pos e3]
  refine ⟨?_, trivial, by omega⟩
  have hf : (Fin.ofNat (r - 4503599627370496) : Fin 4503599627370496).val
      = r - 4503599627370496 := by
    show (r - 4503599627370496) % 4503599627370496 = r - 4503599627370496
    exact Nat.mod_eq_of_lt (by omega)
  simp only [Double.mag, hf, Nat.add_sub_cancel, Nat.succ_ne_zero, if_false]
  have hsum : 4503599627370496 + (r - 4503599627370496) = r := by omega
  rw [hsum, hN, hsplit, Nat.shiftLeft_eq]

theorem lowDigits_length : ∀ (k n : Nat), (lowDigits k n).length = k
  | 0, _ => rfl
  | k + 1, n => by simp [lowDigits, lowDigits_length k]

theorem digit_isDigit : ∀ d : Nat, d < 10 → (Char.ofNat (48 + d)).isDigit = true := by
  decide

theorem lowDigits_isDigit : ∀ (k n : Nat), ∀ c ∈ lowDigits k n, c.isDigit = true
  | 0, _ => by simp [lowDigits]
  | k + 1, n => by
    intro c hc
    simp only [lowDigits, List.mem_append, List.mem_singleton] at hc
    rcases hc with hc | hc
    · exact lowDigits_isDigit k _ c hc
    · rw [hc]
      exact digit_isDigit _ (Nat.mod_lt _ (by norm_num))

/-- Every finite double is printed as a fixed-point decimal with 17 decimals. -/
theorem isFixed17_fixed17 {d : Double} (hn : d.isnan = false) (hi : d.isinf = false) :
    IsFixed17 (fixed17 d) := by
  unfold fixed17
  simp only [hn, hi, Bool.false_eq_true, if_false]
  exact ⟨d.sign, _, _, rfl, lowDigits_length _ _, lowDigits_isDigit _ _⟩

theorem isFixed17_countField (n : Int) : IsFixed17 (countField n) := by
  refine ⟨decide (n < 0), n.natAbs, List.replicate 17 (Char.ofNat 48), ?_, by simp, ?_⟩
  · have hz : String.mk (List.replicate 17 (Char.ofNat 48)) = "00000000000000000" := by decide
    rw [hz]
    unfold countField
    by_cases h : n < 0 <;> simp [h]
  · intro c hc
    rw [List.eq_of_mem_replicate hc]
    decide

/-- A finite double of integral value `m` is printed as the numeral of `m` and 17 zeros. -/
theorem fixed17_of_mag {d : Double} {m : Nat} (hm : d.mag = m <<< 1074)
    (he : d.expo.val ≠ 2047) :
    fixed17 d = (if d.sign then "-" else "") ++ toString m ++ "." ++ "00000000000000000" := by
  have hn : d.isnan = false := by simp [Double.isnan, he]
  have hi : d.isinf = false := by simp [Double.isinf, he]
  have hr : Double.rne (d.mag * 10 ^ 17) (1 <<< 1074) = m * 10 ^ 17 := by
    rw [hm]
    exact Double.rne_shift m 1074 (10 ^ 17)
  unfold fixed17
  simp only [hn, hi, Bool.false_eq_true, if_false, hr]
  have hz : String.mk (lowDigits 17 0) = "00000000000000000" := by decide
  rw [Nat.mul_div_cancel _ (by norm_num), Nat.mul_mod_left, hz]


set_option maxRecDepth 100000 in
theorem fixed17_ofInt_zero : fixed17 (Double.ofInt 0) = countField 0 := by decide

/-- A count in the range of `int` is printed unchanged, with 17 zeros after the point. -/
theorem fixed17_ofInt {n : Int} (h : isInt32 n = true) :
    fixed17 (Double.ofInt n) = countField n := by
  simp only [isInt32, Bool.and_eq_true, decide_eq_true_eq] at h
  by_cases h0 : n = 0
  · subst h0
    exact fixed17_ofInt_zero
  · obtain ⟨hm, hsg, he⟩ := Double.round_exact (decide (n < 0)) n.natAbs 1074 rfl
      (by omega) (by omega)
    unfold Double.ofInt
    rw [fixed17_of_mag hm he, hsg]
    unfold countField
    by_cases hneg : n < 0 <;> simp [hneg]


theorem features_ok {sys : System} {s : Locals} (h : features sys = .ok s) :
    ∃ raw, extract sys = .ok raw ∧ s = sanitize raw := by
  unfold features at h
  cases he : extract sys with
  | error e => simp [he, bind, Except.bind] at h
  | ok raw =>
    simp only [he, bind, Except.bind, pure, Except.pure] at h
    injection h with h
    exact ⟨raw, rfl, h.symm⟩

/-- A run that returns 0 had a file name, a problem that loaded, features that were computed
and an output file that opened. -/
theorem main_zero {env : Env} {argv : List String} {w : World}
    (h : (main env argv w).1 = 0) :
    ∃ (prog filename : String) (rest : List String) (sys : System) (s : Locals),
      argv = prog :: filename :: rest ∧ env.load filename = .ok sys ∧
      features sys = .ok s ∧ env.canOpen = true := by
  match argv, h with
  | [], h => simp [main] at h
  | [_], h => simp [main] at h
  | prog :: filename :: rest, h =>
    cases hl : env.load filename with
    | error e =>
      have := (main_error env prog filename rest w e
        (tryBlock_load_error env filename w e hl)).1
      omega
    | ok sys =>
      cases hf : features sys with
      | error e =>
        have ht : tryBlock env filename w = .error e := by
          simp [tryBlock, hl, hf, bind, Except.bind]
        have := (main_error env prog filename rest w e ht).1
        omega
      | ok s =>
        cases ho : env.canOpen with
        | false =>
          simp [main, tryBlock, hl, hf, ho, bind, Except.bind, pure, Except.pure] at h
        | true => exact ⟨prog, filename, rest, sys, s, rfl, hl, hf, rfl⟩


/-! ## The emitted text -/

/-- C11: on every run that returns 0, with counts in the range of `int`, `temp.txt` holds
`((f1 ; f2 ; f3 ; f4 ; f5 ; f6 ; f7))` where `f1` and `f2` are the numerals of `nb_var` and
`nb_ctr` followed by a point and 17 zeros (the counts themselves, neither zero-snapped nor
clamped), `f3` to `f7` print the cleaned `lb_f_obj`, `ub_f_obj`, `search_space`, `bigger_diam`
and `lower_diam` in this order, and each of the seven fields is a fixed-point decimal with
exactly 17 digits after the decimal point. -/
theorem emitted_format (env : Env) (argv : List String) (w : World)
    (hint : ∀ (f : String) (sys : System), env.load f = .ok sys →
      isInt32 sys.nb_var = true ∧ isInt32 sys.nb_ctr = true)
    (h0 : (main env argv w).1 = 0) :
    ∃ (prog filename : String) (rest : List String) (sys : System) (s : Locals),
      argv = prog :: filename :: rest ∧ env.load filename = .ok sys ∧
      features sys = .ok s ∧
      (main env argv w).2.temp_txt = some ("((" ++ countField sys.nb_var ++ " ; "
        ++ countField sys.nb_ctr ++ " ; "
        ++ fixed17 s.lb_f_obj ++ " ; "
        ++ fixed17 s.ub_f_obj ++ " ; "
        ++ fixed17 s.search_space ++ " ; "
        ++ fixed17 s.bigger_diam ++ " ; "
        ++ fixed17 s.lower_diam
        ++ "))") ∧
      IsFixed17 (countField sys.nb_var) ∧ IsFixed17 (countField sys.nb_ctr) ∧
      IsFixed17 (fixed17 s.lb_f_obj) ∧ IsFixed17 (fixed17 s.ub_f_obj) ∧
      IsFixed17 (fixed17 s.search_space) ∧ IsFixed17 (fixed17 s.bigger_diam) ∧
      IsFixed17 (fixed17 s.lower_diam) := by
  obtain ⟨prog, filename, rest, sys, s, hargv, hload, hfeat, hopen⟩ := main_zero h0
  subst hargv
  obtain ⟨hv, hc⟩ := hint filename sys hload
  obtain ⟨raw, -, hs⟩ := features_ok hfeat
  obtain ⟨f1, f2, f3, f4, f5⟩ := sanitize_finite raw
  rw [← hs] at f1 f2 f3 f4 f5
  refine ⟨prog, filename, rest, sys, s, rfl, hload, hfeat, ?_, isFixed17_countField _,
    isFixed17_countField _, isFixed17_fixed17 f1.1 f1.2, isFixed17_fixed17 f2.1 f2.2,
    isFixed17_fixed17 f3.1 f3.2, isFixed17_fixed17 f4.1 f4.2, isFixed17_fixed17 f5.1 f5.2⟩
  rw [main_ok env prog filename rest w sys s hload hfeat hopen]
  simp only [outputLine, fixed17_ofInt hv, fixed17_ofInt hc]

theorem manyConstraints_run :
    (main ⟨fun _ => .ok manyConstraints, true⟩ ["./foo", "many.bch"] ⟨none, ""⟩).1 = 0 := by
  rw [main_ok _ "./foo" "many.bch" [] _ manyConstraints _ rfl
    (features_no_goal manyConstraints rfl) rfl]

/-- Witness of C11: a run on the problem `manyConstraints`. -/
theorem emitted_format_witness :
    ∃ (prog filename : String) (rest : List String) (sys : System) (s : Locals),
      ["./foo", "many.bch"] = prog :: filename :: rest ∧
      (Except.ok manyConstraints : Except Exc System) = .ok sys ∧
      features sys = .ok s ∧
      (main ⟨fun _ => .ok manyConstraints, true⟩ ["./foo", "many.bch"] ⟨none, ""⟩).2.temp_txt
        = some ("((" ++ countField sys.nb_var ++ " ; "
        ++ countField sys.nb_ctr ++ " ; "
        ++ fixed17 s.lb_f_obj ++ " ; "
        ++ fixed17 s.ub_f_obj ++ " ; "
        ++ fixed17 s.search_space ++ " ; "
        ++ fixed17 s.bigger_diam ++ " ; "
        ++ fixed17 s.lower_diam
        ++ "))") ∧
      IsFixed17 (countField sys.nb_var) ∧ IsFixed17 (countField sys.nb_ctr) ∧
      IsFixed17 (fixed17 s.lb_f_obj) ∧ IsFixed17 (fixed17 s.ub_f_obj) ∧
      IsFixed17 (fixed17 s.search_space) ∧ IsFixed17 (fixed17 s.bigger_diam) ∧
      IsFixed17 (fixed17 s.lower_diam) :=
  emitted_format ⟨fun _ => .ok manyConstraints, true⟩ ["./foo", "many.bch"] ⟨none, ""⟩
    (fun _ sys h => by
      injection h with h
      subst h
      exact ⟨by decide, by decide⟩)
    manyConstraints_run

set_option maxRecDepth 100000 in
theorem manyConstraints_line :
    (main ⟨fun _ => .ok manyConstraints, true⟩ ["./foo", "many.bch"] ⟨none, ""⟩).2.temp_txt
      = some "((1.00000000000000000 ; 10000000.00000000000000000 ; 0.00000000000000000 ; 0.00000000000000000 ; 1.00000000000000000 ; 1.00000000000000000 ; 1.00000000000000000))" := by
  rw [main_ok _ "./foo" "many.bch" [] _ manyConstraints _ rfl
    (features_no_goal manyConstraints rfl) rfl, sumLoop_foldl, sanitize_eq]
  unfold cleanBound cleanWidth
  rw [UMBRAL_CERO_bits, CLAMP_VALUE_bits, MAX_VALUE_bits]
  decide

end IbexFeatures
